import Mathlib

/-!
Verification of the polling-based fork-availability waiter and its
surrounding helpers in `src/fork.py`, as a shallow embedding in Lean.
HTTP responses are modelled by the data the code inspects (status code,
content type, body text, decoded JSON fields), sleeps are counted rather
than performed, and the check performed on each poll attempt is abstracted
as a function from the attempt index to the HTTP status it observes.
-/

set_option autoImplicit false

namespace Fork

/-- Tri-state outcome of one existence check. Modelled from the spec:
the existence-check capability maps a lookup result to ready, not-ready
or permanent-error; the source itself only ever compares the status
against 200. -/
inductive PollOutcome where
  | ready
  | notReady
  | permanentError
deriving DecidableEq, Repr

/-- Modelled from the spec: the existence-check status mapping — a found
status (200) maps to ready, a not-found status (404) to not-ready, and
any other unexpected status to permanent-error. The source
(`fork.py` line 72) only tests `rr.status_code == 200`. -/
def statusOutcome (status : Nat) : PollOutcome :=
  if status = 200 then PollOutcome.ready
  else if status = 404 then PollOutcome.notReady
  else PollOutcome.permanentError

/-- Observable trace of one run of the polling loop: how many existence
checks were issued, how many sleeps were performed, and whether the loop
exited via `break` (resource found). -/
structure PollResult where
  checks : Nat
  sleeps : Nat
  success : Bool
deriving DecidableEq, Repr

/-- Embedding of the polling loop of `fork_github_repo`
(`fork.py` lines 70-74):
`for i in range(n): rr = get(...); if rr.status_code == 200: break; sleep(2)`.
`check i` is the HTTP status observed by the GET of attempt `i`
(0-based); `n` is the number of loop iterations remaining and `i` the
current attempt index. A failed check is always followed by a sleep,
including the last one before the loop's `else` clause runs. -/
def pollLoop (check : Nat → Nat) : Nat → Nat → PollResult
  | 0, _ => ⟨0, 0, false⟩
  | n + 1, i =>
    if check i = 200 then ⟨1, 0, true⟩
    else
      let rest := pollLoop check n (i + 1)
      ⟨rest.checks + 1, rest.sleeps + 1, rest.success⟩

/-- The loop bound hardcoded at `fork.py` line 70: `range(10)`. -/
def pollMaxAttempts : Nat := 10

/-- The sleep duration hardcoded at `fork.py` line 74: `time.sleep(2)`. -/
def pollDelaySeconds : Nat := 2

/-- The message of the `RuntimeError` raised at `fork.py` line 76 when the
loop exhausts without a 200; it is a fixed literal. -/
def timeoutMessage : String := "Timed out waiting for fork to be available"

/-- Embedding of the wait phase of `fork_github_repo`
(`fork.py` lines 70-77): run the polling loop with the hardcoded bound;
on `break` return the fork's full name, otherwise raise the timeout
`RuntimeError`. -/
def forkAvailabilityWait (fork_full_name : String) (check : Nat → Nat) :
    Except String String :=
  if (pollLoop check pollMaxAttempts 0).success then Except.ok fork_full_name
  else Except.error timeoutMessage

theorem statusOutcome_ready_iff (s : Nat) :
    statusOutcome s = PollOutcome.ready ↔ s = 200 := by
  unfold statusOutcome
  by_cases h : s = 200 <;> by_cases h4 : s = 404 <;> simp [h, h4]

theorem statusOutcome_notReady_iff (s : Nat) :
    statusOutcome s = PollOutcome.notReady ↔ s = 404 := by
  unfold statusOutcome
  by_cases h : s = 200 <;> by_cases h4 : s = 404 <;> simp [h, h4]

theorem pollLoop_never (check : Nat → Nat) :
    ∀ (n i : Nat), (∀ j, check j ≠ 200) → pollLoop check n i = ⟨n, n, false⟩ := by
  intro n
  induction n with
  | zero => intro i _; rfl
  | succ m ih =>
    intro i h
    simp only [pollLoop, h i, if_false, ih (i + 1) h]

theorem pollLoop_first_success (check : Nat → Nat) :
    ∀ (m n i : Nat), m < n → (∀ j, j < m → check (i + j) ≠ 200) →
      check (i + m) = 200 → pollLoop check n i = ⟨m + 1, m, true⟩ := by
  intro m
  induction m with
  | zero =>
    intro n i hn _ hr
    match n, hn with
    | n + 1, _ =>
      have hr0 : check i = 200 := by simpa using hr
      simp [pollLoop, hr0]
  | succ m ih =>
    intro n i hn hb hr
    match n, hn with
    | n + 1, hn =>
      have h0 : check i ≠ 200 := by
        have := hb 0 (Nat.succ_pos m)
        simpa using this
      have hb' : ∀ j, j < m → check (i + 1 + j) ≠ 200 := by
        intro j hj
        have hrw : i + 1 + j = i + (j + 1) := by omega
        rw [hrw]
        exact hb (j + 1) (Nat.succ_lt_succ hj)
      have hr' : check (i + 1 + m) = 200 := by
        have hrw : i + 1 + m = i + (m + 1) := by omega
        rw [hrw]; exact hr
      have ihr := ih n (i + 1) (Nat.lt_of_succ_lt_succ hn) hb' hr'
      simp only [pollLoop, h0, if_false, ihr]

theorem pollLoop_success_ready (check : Nat → Nat) :
    ∀ (n i : Nat), (pollLoop check n i).success = true →
      ∃ j, j < n ∧ check (i + j) = 200 := by
  intro n
  induction n with
  | zero => intro i h; simp [pollLoop] at h
  | succ m ih =>
    intro i h
    by_cases hc : check i = 200
    · exact ⟨0, Nat.succ_pos m, by simpa using hc⟩
    · simp only [pollLoop, hc, if_false] at h
      obtain ⟨j, hj, hcj⟩ := ih (i + 1) h
      refine ⟨j + 1, Nat.succ_lt_succ hj, ?_⟩
      have hrw : i + (j + 1) = i + 1 + j := by omega
      rw [hrw]; exact hcj

theorem pollLoop_checks_le (check : Nat → Nat) :
    ∀ (n i : Nat), (pollLoop check n i).checks ≤ n := by
  intro n
  induction n with
  | zero => intro i; exact Nat.le_refl 0
  | succ m ih =>
    intro i
    by_cases hc : check i = 200
    · simp [pollLoop, hc]
    · simp only [pollLoop, hc, if_false]
      exact Nat.succ_le_succ (ih (i + 1))

/-- The configuration dictionary built by `load_config`
(`fork.py` lines 24-38), one field per key, in order. -/
structure ForkCfg where
  github_org : String
  github_user : String
  gitlab_ns : String
  release_tag : String
  release_name : String
  release_body : String
  require_mime : Bool
  allowed_mime : List String
  require_hmac : Bool
deriving DecidableEq, Repr

/-- Python's `a or b` on strings: `a` when `a` is truthy (non-empty),
otherwise `b`. -/
def pyOrS (a b : String) : String := if a = "" then b else a

/-- The fallback target computed at `fork.py` line 67:
`cfg['github_org'] or cfg['github_user'] or os.getenv('GITHUB_ACTOR') or ''`.
`githubActor` is the value of the `GITHUB_ACTOR` environment variable
(`none` when unset, which Python treats as falsy, like the empty string). -/
def fallbackTarget (cfg : ForkCfg) (githubActor : Option String) : String :=
  pyOrS cfg.github_org (pyOrS cfg.github_user (pyOrS (githubActor.getD "") ""))

/-- The handle used for polling, from `fork.py` lines 64-68:
`fork_info.get('full_name')` when present and truthy, otherwise the
fallback `f"{target}/{repo}"`. `responseFullName` is the `full_name`
field of the creation response (`none` when the key is absent). -/
def forkFullNameOf (responseFullName : Option String) (cfg : ForkCfg)
    (githubActor : Option String) (repo : String) : String :=
  match responseFullName with
  | some fn =>
    if fn = "" then fallbackTarget cfg githubActor ++ "/" ++ repo else fn
  | none => fallbackTarget cfg githubActor ++ "/" ++ repo

/-- The maximum attempt count the waiter uses during a run with
configuration `cfg`: the loop bound at `fork.py` line 70 is the literal
`10`, whatever the configuration holds. -/
def waiterMaxAttempts (cfg : ForkCfg) : Nat := pollMaxAttempts

/-- The per-attempt delay the waiter uses during a run with configuration
`cfg`: the sleep at `fork.py` line 74 is the literal `2`, whatever the
configuration holds. -/
def waiterDelay (cfg : ForkCfg) : Nat := pollDelaySeconds

/-- Embedding of `source.split('/', 1)` followed by the two-variable
unpacking at `fork.py` line 52 (and line 103): with at least one `'/'`
in `source` the split yields the text before the first `'/'` and
everything after it; with no `'/'` the unpacking raises `ValueError`,
modelled as `none`. -/
def split_slash_once (s : String) : Option (String × String) :=
  if ('/' ∈ s.data) then
    some (String.mk (s.data.takeWhile (fun c => c ≠ '/')),
          String.mk ((s.data.dropWhile (fun c => c ≠ '/')).tail))
  else none

/-- Python's `str.strip` restricted to what the code feeds it:
drop leading and trailing whitespace. -/
def stripStr (s : String) : String :=
  String.mk (((s.data.dropWhile Char.isWhitespace).reverse.dropWhile
    Char.isWhitespace).reverse)

/-- The content-type extraction at `fork.py` line 46:
`resp.headers.get('Content-Type','').split(';')[0].strip()`. -/
def contentTypeOf (raw : String) : String :=
  stripStr (String.mk (raw.data.takeWhile (fun c => c ≠ ';')))

/-- Embedding of `verify_response` (`fork.py` lines 40-49): raise on a
non-2xx status; when `allowedMime` is a non-empty list (Python
`if allowed_mime:` is false for `None` and for `[]`), raise when the
extracted content type is not in it. -/
def verify_response (status : Nat) (contentType : String) (text : String)
    (allowedMime : Option (List String)) : Except String Unit :=
  if ¬ (200 ≤ status ∧ status < 300) then
    Except.error ("HTTP " ++ toString status ++ ": " ++ text)
  else
    match allowedMime with
    | none => Except.ok ()
    | some ms =>
      if ms = [] then Except.ok ()
      else
        let ct := contentTypeOf contentType
        if ct ∈ ms then Except.ok ()
        else Except.error ("Unexpected MIME type: " ++ ct)

/-- One element of the decoded releases listing, keeping the only field
the code reads: `html_url` (absent modelled as `none`, matching
`.get('html_url')` returning `None`). -/
structure Release where
  html_url : Option String
deriving DecidableEq, Repr

/-- The data the code inspects in an HTTP response: status code, the
`Content-Type` header (empty when absent) and the body text. -/
structure HttpResp where
  status : Nat
  contentType : String
  text : String
deriving DecidableEq, Repr

/-- Embedding of `ensure_github_release` (`fork.py` lines 79-99).
`listResp`/`releases` model the GET of the releases listing and its
decoded JSON; `createResp`/`createdUrl` model the POST that would create
a release and the `html_url` of its decoded response. The second
component of the result counts the release-creation POSTs issued. -/
def ensure_github_release (cfg : ForkCfg) (listResp : HttpResp)
    (releases : List Release) (createResp : HttpResp)
    (createdUrl : Option String) : Except String (Option String) × Nat :=
  let mime := if cfg.require_mime then some cfg.allowed_mime else none
  match verify_response listResp.status listResp.contentType listResp.text mime with
  | Except.error e => (Except.error e, 0)
  | Except.ok _ =>
    match releases with
    | r :: _ => (Except.ok r.html_url, 0)
    | [] =>
      match verify_response createResp.status createResp.contentType
          createResp.text mime with
      | Except.error e => (Except.error e, 1)
      | Except.ok _ => (Except.ok createdUrl, 1)

/-- `sub` occurs starting at the head of `hay`. -/
def startsAt : List Char → List Char → Bool
  | [], _ => true
  | _ :: _, [] => false
  | c :: cs, d :: ds => (c = d) && startsAt cs ds

/-- `sub` occurs somewhere inside `hay`. -/
def containsSeq (sub : List Char) : List Char → Bool
  | [] => startsAt sub []
  | d :: ds => startsAt sub (d :: ds) || containsSeq sub ds

/-- The string `msg` mentions `sub` as a contiguous substring. -/
def strMentions (msg sub : String) : Bool := containsSeq sub.data msg.data

/-- C1 counterexample: a check that reports status 401 on every attempt
classifies as permanent-error under the existence-check mapping, yet the
loop performs all 10 checks (not 1) with a sleep after each, and the run
fails with the timeout `RuntimeError`, not a permanent-error failure. -/
theorem C1_counterexample :
    statusOutcome 401 = PollOutcome.permanentError ∧
    pollLoop (fun _ => 401) pollMaxAttempts 0 = ⟨10, 10, false⟩ ∧
    (pollLoop (fun _ => 401) pollMaxAttempts 0).checks ≠ 1 ∧
    forkAvailabilityWait "octocat/Spoon-Knife" (fun _ => 401) =
      Except.error timeoutMessage :=
  ⟨by decide, by decide, by decide, rfl⟩

/-- C1 (amended): the source never distinguishes permanent errors — when
every attempt's status classifies as permanent-error, the loop treats it
like not-ready: it performs all `n` checks with a sleep after each
(including the last) and the wait fails with the fixed timeout message,
never with a distinct permanent-error outcome. -/
theorem permanent_error_retried (handle : String) (check : Nat → Nat) (n : Nat)
    (h : ∀ j, statusOutcome (check j) = PollOutcome.permanentError) :
    pollLoop check n 0 = ⟨n, n, false⟩ ∧
    forkAvailabilityWait handle check = Except.error timeoutMessage := by
  have hne : ∀ j, check j ≠ 200 := by
    intro j hj
    have hperm := h j
    rw [hj] at hperm
    simp [statusOutcome] at hperm
  refine ⟨pollLoop_never check n 0 hne, ?_⟩
  unfold forkAvailabilityWait
  rw [pollLoop_never check pollMaxAttempts 0 hne]
  simp

/-- Witness for the amended C1 at a concrete permanent-error check. -/
theorem permanent_error_retried_witness :
    (∀ j : Nat, statusOutcome ((fun _ => 401) j) = PollOutcome.permanentError) ∧
    (pollLoop (fun _ => 401) 3 0 = ⟨3, 3, false⟩ ∧
      forkAvailabilityWait "octocat/Hello" (fun _ => 401) =
        Except.error timeoutMessage) :=
  ⟨fun _ => rfl,
   permanent_error_retried "octocat/Hello" (fun _ => 401) 3 (fun _ => rfl)⟩

/-- C2 counterexample: with max_attempts = 1 and a check that reports
not-ready (404), the loop performs 1 check but 1 sleep — not the claimed
max_attempts − 1 = 0 sleeps — before the timeout. -/
theorem C2_counterexample :
    statusOutcome 404 = PollOutcome.notReady ∧
    pollLoop (fun _ => 404) 1 0 = ⟨1, 1, false⟩ ∧
    (pollLoop (fun _ => 404) 1 0).sleeps ≠ 1 - 1 :=
  ⟨by decide, by decide, by decide⟩

/-- C2 (amended): for every max_attempts ≥ 1, if the check reports
not-ready on every attempt, the loop performs exactly max_attempts
checks and exactly max_attempts sleeps — one after every failed check,
including the last — and then fails with the timeout error. -/
theorem not_ready_exhaustion (handle : String) (check : Nat → Nat) (n : Nat)
    (hn : 1 ≤ n) (h : ∀ j, statusOutcome (check j) = PollOutcome.notReady) :
    pollLoop check n 0 = ⟨n, n, false⟩ ∧
    forkAvailabilityWait handle check = Except.error timeoutMessage := by
  have hne : ∀ j, check j ≠ 200 := by
    intro j
    have h4 := (statusOutcome_notReady_iff (check j)).mp (h j)
    omega
  refine ⟨pollLoop_never check n 0 hne, ?_⟩
  unfold forkAvailabilityWait
  rw [pollLoop_never check pollMaxAttempts 0 hne]
  simp

/-- Witness for the amended C2 at max_attempts = 1. -/
theorem not_ready_exhaustion_witness :
    1 ≤ 1 ∧
    (∀ j : Nat, statusOutcome ((fun _ => 404) j) = PollOutcome.notReady) ∧
    (pollLoop (fun _ => 404) 1 0 = ⟨1, 1, false⟩ ∧
      forkAvailabilityWait "a/b" (fun _ => 404) =
        Except.error timeoutMessage) :=
  ⟨Nat.le_refl 1, fun _ => rfl,
   not_ready_exhaustion "a/b" (fun _ => 404) 1 (Nat.le_refl 1) (fun _ => rfl)⟩

/-- C3 (confirmed): if the check first reports ready on attempt k
(1-based) with k ≤ max_attempts, reporting not-ready on all earlier
attempts, the loop succeeds after exactly k checks and k − 1 sleeps —
the sleep in the source follows only a failed check, so none follows the
ready one. -/
theorem ready_on_attempt_k (check : Nat → Nat) (n k : Nat)
    (hk : 1 ≤ k) (hkn : k ≤ n)
    (hb : ∀ j, j + 1 < k → statusOutcome (check j) = PollOutcome.notReady)
    (hr : statusOutcome (check (k - 1)) = PollOutcome.ready) :
    pollLoop check n 0 = ⟨k, k - 1, true⟩ := by
  have hr' : check (0 + (k - 1)) = 200 := by
    have h200 := (statusOutcome_ready_iff (check (k - 1))).mp hr
    simpa using h200
  have hb' : ∀ j, j < k - 1 → check (0 + j) ≠ 200 := by
    intro j hj
    have h4 := (statusOutcome_notReady_iff (check j)).mp (hb j (by omega))
    rw [Nat.zero_add]
    omega
  have hfs := pollLoop_first_success check (k - 1) n 0 (by omega) hb' hr'
  have hk1 : k - 1 + 1 = k := by omega
  rw [hk1] at hfs
  exact hfs

/-- Witness for C3: the spec's concrete scenario — max_attempts = 3 and
check sequence not-ready, not-ready, ready gives success after 3 checks
and 2 sleeps. -/
theorem ready_on_attempt_k_witness :
    1 ≤ 3 ∧ 3 ≤ 3 ∧
    (∀ j, j + 1 < 3 →
      statusOutcome ((fun i => if i < 2 then 404 else 200) j) =
        PollOutcome.notReady) ∧
    statusOutcome ((fun i => if i < 2 then 404 else 200) (3 - 1)) =
      PollOutcome.ready ∧
    pollLoop (fun i => if i < 2 then 404 else 200) 3 0 = ⟨3, 2, true⟩ :=
  ⟨by decide, by decide,
   fun j hj => by
     have hj01 : j = 0 ∨ j = 1 := by omega
     rcases hj01 with h | h <;> subst h <;> rfl,
   by decide,
   ready_on_attempt_k (fun i => if i < 2 then 404 else 200) 3 3
     (by decide) (by decide)
     (fun j hj => by
       have hj01 : j = 0 ∨ j = 1 := by omega
       rcases hj01 with h | h <;> subst h <;> rfl)
     (by decide)⟩

/-- C4 (confirmed): for every check function the loop is bounded — it
performs at most `n` checks when given `n` iterations, and in the source
instantiation at most `pollMaxAttempts` = 10 checks; it never retries
without bound. -/
theorem attempts_bounded (check : Nat → Nat) :
    (∀ n i, (pollLoop check n i).checks ≤ n) ∧
    (pollLoop check pollMaxAttempts 0).checks ≤ pollMaxAttempts :=
  ⟨pollLoop_checks_le check, pollLoop_checks_le check pollMaxAttempts 0⟩

/-- C5 (confirmed): whenever the wait returns success, some attempt's
check observed status 200, i.e. a ready ("found") result; success is
never reported with zero successful existence checks. -/
theorem success_requires_ready (handle v : String) (check : Nat → Nat)
    (h : forkAvailabilityWait handle check = Except.ok v) :
    ∃ j, j < pollMaxAttempts ∧ statusOutcome (check j) = PollOutcome.ready := by
  have hs : (pollLoop check pollMaxAttempts 0).success = true := by
    by_contra hns
    unfold forkAvailabilityWait at h
    simp [hns] at h
  obtain ⟨j, hj, hc⟩ := pollLoop_success_ready check pollMaxAttempts 0 hs
  refine ⟨j, hj, ?_⟩
  rw [statusOutcome_ready_iff]
  simpa using hc

/-- Witness for C5 at a check that is ready immediately. -/
theorem success_requires_ready_witness :
    forkAvailabilityWait "o/r" (fun _ => 200) = Except.ok "o/r" ∧
    (∃ j, j < pollMaxAttempts ∧
      statusOutcome ((fun _ => 200) j) = PollOutcome.ready) :=
  ⟨rfl, success_requires_ready "o/r" "o/r" (fun _ => 200) rfl⟩

/-- C6 counterexample: on exhaustion the raised error is the fixed
string, which mentions neither the handle being waited on nor the
attempt count 10. -/
theorem C6_counterexample :
    forkAvailabilityWait "octocat/Hello-World" (fun _ => 404) =
      Except.error "Timed out waiting for fork to be available" ∧
    strMentions "Timed out waiting for fork to be available"
      "octocat/Hello-World" = false ∧
    strMentions "Timed out waiting for fork to be available" "10" = false :=
  ⟨rfl, by decide, by decide⟩

/-- C6 (amended): whenever the poll exhausts without success the wait
fails with the one fixed message `timeoutMessage`, independent of the
handle, and that message does not mention the attempt count 10. -/
theorem timeout_error_fixed_message (handle : String) (check : Nat → Nat)
    (h : (pollLoop check pollMaxAttempts 0).success = false) :
    forkAvailabilityWait handle check = Except.error timeoutMessage ∧
    strMentions timeoutMessage "10" = false := by
  constructor
  · unfold forkAvailabilityWait
    rw [h]
    simp
  · decide

/-- Witness for the amended C6 at an always-not-ready check. -/
theorem timeout_error_fixed_message_witness :
    (pollLoop (fun _ => 404) pollMaxAttempts 0).success = false ∧
    (forkAvailabilityWait "c/d" (fun _ => 404) = Except.error timeoutMessage ∧
      strMentions timeoutMessage "10" = false) :=
  ⟨by decide, timeout_error_fixed_message "c/d" (fun _ => 404) (by decide)⟩

/-- C7 (confirmed): when the creation response omits `full_name`, the
polling handle is `target ++ "/" ++ repo` with `target` computed from the
identity fields (configured org, then configured user, then the
`GITHUB_ACTOR` environment value); it depends on nothing else, so equal
identity inputs give equal handles. -/
theorem derived_handle_deterministic (cfg cfg' : ForkCfg)
    (actor : Option String) (repo : String)
    (horg : cfg.github_org = cfg'.github_org)
    (huser : cfg.github_user = cfg'.github_user) :
    forkFullNameOf none cfg actor repo =
      fallbackTarget cfg actor ++ "/" ++ repo ∧
    forkFullNameOf none cfg actor repo =
      forkFullNameOf none cfg' actor repo := by
  unfold forkFullNameOf fallbackTarget
  rw [horg, huser]
  exact ⟨rfl, rfl⟩

/-- Witness for C7: two configurations equal on the identity fields but
different elsewhere derive the same handle for a handle-less response. -/
theorem derived_handle_deterministic_witness :
    (ForkCfg.mk "obinexus" "alice" "" "v1" "n1" "b1" false [] false).github_org =
      (ForkCfg.mk "obinexus" "alice" "ns" "v2" "n2" "b2" true ["text/html"] true).github_org ∧
    (ForkCfg.mk "obinexus" "alice" "" "v1" "n1" "b1" false [] false).github_user =
      (ForkCfg.mk "obinexus" "alice" "ns" "v2" "n2" "b2" true ["text/html"] true).github_user ∧
    (forkFullNameOf none (ForkCfg.mk "obinexus" "alice" "" "v1" "n1" "b1" false [] false)
        (some "bob") "repo" =
      fallbackTarget (ForkCfg.mk "obinexus" "alice" "" "v1" "n1" "b1" false [] false)
        (some "bob") ++ "/" ++ "repo" ∧
    forkFullNameOf none (ForkCfg.mk "obinexus" "alice" "" "v1" "n1" "b1" false [] false)
        (some "bob") "repo" =
      forkFullNameOf none (ForkCfg.mk "obinexus" "alice" "ns" "v2" "n2" "b2" true ["text/html"] true)
        (some "bob") "repo") :=
  ⟨rfl, rfl,
   derived_handle_deterministic
     (ForkCfg.mk "obinexus" "alice" "" "v1" "n1" "b1" false [] false)
     (ForkCfg.mk "obinexus" "alice" "ns" "v2" "n2" "b2" true ["text/html"] true)
     (some "bob") "repo" rfl rfl⟩

/-- C8 counterexample: two configurations that differ in every field give
the waiter the same attempt bound 10 and the same delay 2 — the values
the waiter consumes are not influenced by configuration. -/
theorem C8_counterexample :
    ForkCfg.mk "orgA" "userA" "nsA" "vA" "nA" "bA" true ["application/json"] true ≠
      ForkCfg.mk "" "" "" "vB" "nB" "bB" false [] false ∧
    waiterMaxAttempts
        (ForkCfg.mk "orgA" "userA" "nsA" "vA" "nA" "bA" true ["application/json"] true) =
      waiterMaxAttempts (ForkCfg.mk "" "" "" "vB" "nB" "bB" false [] false) ∧
    waiterDelay
        (ForkCfg.mk "orgA" "userA" "nsA" "vA" "nA" "bA" true ["application/json"] true) =
      waiterDelay (ForkCfg.mk "" "" "" "vB" "nB" "bB" false [] false) ∧
    waiterMaxAttempts
        (ForkCfg.mk "orgA" "userA" "nsA" "vA" "nA" "bA" true ["application/json"] true) = 10 ∧
    waiterDelay
        (ForkCfg.mk "orgA" "userA" "nsA" "vA" "nA" "bA" true ["application/json"] true) = 2 :=
  ⟨by decide, rfl, rfl, rfl, rfl⟩

/-- C8 (amended): the attempt bound and per-attempt delay the waiter
consumes are the fixed source literals — 10 attempts and a 2-second
delay, matching the documented defaults — and are identical under every
configuration; they are not externally configurable. -/
theorem waiter_bounds_fixed (cfg cfg' : ForkCfg) :
    waiterMaxAttempts cfg = 10 ∧ waiterDelay cfg = 2 ∧
    waiterMaxAttempts cfg = waiterMaxAttempts cfg' ∧
    waiterDelay cfg = waiterDelay cfg' :=
  ⟨rfl, rfl, rfl, rfl⟩

/-- C9 (confirmed): when the releases listing decodes to a non-empty
list (and its response verifies), `ensure_github_release` returns the
`html_url` of the first listed release and issues zero release-creation
POSTs. -/
theorem release_exists_no_creation (cfg : ForkCfg)
    (listResp createResp : HttpResp) (r : Release) (rs : List Release)
    (createdUrl : Option String)
    (h : verify_response listResp.status listResp.contentType listResp.text
        (if cfg.require_mime then some cfg.allowed_mime else none) =
      Except.ok ()) :
    ensure_github_release cfg listResp (r :: rs) createResp createdUrl =
      (Except.ok r.html_url, 0) := by
  simp only [ensure_github_release]
  rw [h]

def demoCfg : ForkCfg :=
  ⟨"obinexus", "", "", "v0.0.1", "Initial release", "Auto-created release",
   false, [], false⟩

def demoListResp : HttpResp := ⟨200, "application/json", "listing"⟩

def demoCreateResp : HttpResp := ⟨201, "application/json", "created"⟩

def demoRelease : Release := ⟨some "https://example.test/releases/v1"⟩

/-- Witness for C9 at a concrete single-release listing. -/
theorem release_exists_no_creation_witness :
    verify_response demoListResp.status demoListResp.contentType
        demoListResp.text
        (if demoCfg.require_mime then some demoCfg.allowed_mime else none) =
      Except.ok () ∧
    ensure_github_release demoCfg demoListResp [demoRelease] demoCreateResp
        (some "unused") =
      (Except.ok demoRelease.html_url, 0) :=
  ⟨rfl,
   release_exists_no_creation demoCfg demoListResp demoCreateResp demoRelease
     [] (some "unused") rfl⟩

theorem takeWhile_no_slash (l : List Char) :
    '/' ∉ l.takeWhile (fun c => c ≠ '/') := by
  induction l with
  | nil => simp
  | cons c t ih =>
    by_cases hc : c = '/'
    · rw [List.takeWhile_cons_of_neg (by simp [hc])]
      simp
    · rw [List.takeWhile_cons_of_pos (by simp [hc])]
      intro hmem
      rcases List.mem_cons.mp hmem with h1 | h1
      · exact hc h1.symm
      · exact ih h1

theorem split_slash_decomp (l : List Char) :
    '/' ∈ l →
      l = l.takeWhile (fun c => c ≠ '/') ++
        '/' :: (l.dropWhile (fun c => c ≠ '/')).tail := by
  induction l with
  | nil => intro h; simp at h
  | cons c t ih =>
    intro h
    by_cases hc : c = '/'
    · rw [List.takeWhile_cons_of_neg (by simp [hc]),
          List.dropWhile_cons_of_neg (by simp [hc])]
      subst hc
      simp
    · have ht : '/' ∈ t := by
        rcases List.mem_cons.mp h with h1 | h1
        · exact absurd h1.symm hc
        · exact h1
      rw [List.takeWhile_cons_of_pos (by simp [hc]),
          List.dropWhile_cons_of_pos (by simp [hc]),
          List.cons_append]
      exact congrArg (fun x => c :: x) (ih ht)

/-- C10 (confirmed): with at least one `'/'` in `source`, the
`split('/', 1)` unpacking succeeds, the owner is the text before the
first `'/'` (so it contains no `'/'`), and the repository name is the
whole remainder, which may itself contain further `'/'` characters. -/
theorem source_split_at_first_slash (s : String) (h : '/' ∈ s.data) :
    ∃ o r, split_slash_once s = some (o, r) ∧ ('/' ∉ o.data) ∧
      s.data = o.data ++ '/' :: r.data := by
  refine ⟨String.mk (s.data.takeWhile (fun c => c ≠ '/')),
          String.mk ((s.data.dropWhile (fun c => c ≠ '/')).tail), ?_, ?_, ?_⟩
  · unfold split_slash_once
    rw [if_pos h]
  · exact takeWhile_no_slash s.data
  · exact split_slash_decomp s.data h

/-- Witness for C10 at a source whose repository part keeps a later
slash. -/
theorem source_split_at_first_slash_witness :
    ('/' ∈ "obinexus/tool/cli".data) ∧
    split_slash_once "obinexus/tool/cli" = some ("obinexus", "tool/cli") ∧
    (∃ o r, split_slash_once "obinexus/tool/cli" = some (o, r) ∧
      ('/' ∉ o.data) ∧
      "obinexus/tool/cli".data = o.data ++ '/' :: r.data) :=
  ⟨by decide, by decide,
   source_split_at_first_slash "obinexus/tool/cli" (by decide)⟩

end Fork
